import Mathlib

/-!
Verification of the CanvasToNotion sync script: a shallow embedding of its
reconciliation pass (sentinel filtering, the existing-page lookup, the
to-create / to-update split, the issued Notion write calls) and of the three
credential getters, together with theorems about the specified properties.
-/

namespace CanvasToNotion

/-- A Canvas assignment record, restricted to the fields the script reads.
Every field the script accesses with optional chaining (`id?.toString()`) or a
nullish default (`?? ...`) is an `Option`. -/
structure Assignment where
  id : Option Int
  name : Option String
  due_at : Option String
  course_id : Option Int
  html_url : Option String
deriving DecidableEq

/-- One row of the `assignmentIds` lookup built by `getExistingAssignments`:
the string form of a page's numeric Assignment Id property, with the page id. -/
structure ExistingEntry where
  assignmentId : String
  pageId : String
deriving DecidableEq

/-- The page-creation payload built by `assignmentToNewPage`: one field per
property of the fixed database schema (Name title, Due Date date, Assignment
Id number, Subject Id rich text, Assignment URL url). `assignmentId` is an
`Option` because `assignment.id as number` is only a type assertion: a missing
id stays `undefined` inside the payload at run time. -/
structure NewPage where
  name : String
  dueDate : String
  assignmentId : Option Int
  subjectId : String
  assignmentUrl : Option String
deriving DecidableEq

/-- A Notion property value occurring in an update payload. -/
inductive PropPayload where
  | date (start : String)
  | url (u : Option String)
deriving DecidableEq

/-- The payload built by `assignmentToUpdatedPage`: the target page id and the
properties record (as a key/value list, in source order). -/
structure UpdatedPage where
  page_id : String
  properties : List (String × PropPayload)
deriving DecidableEq

/-- A `notion.pages.update` call as actually issued by the script body: the
page id and the properties record passed to the client. Values are `Option`
because a JavaScript record lookup can produce `undefined`. -/
structure UpdateCall where
  page_id : String
  properties : List (String × Option PropPayload)
deriving DecidableEq

/-- `assignmentToNewPage` (source lines 128 to 153): title defaults to
"Untitled", due date defaults to `new Date().toISOString()` (the `now`
parameter), the Assignment Id number is the raw (possibly absent) id, Subject
Id is the course id interpolated with default 0, and the url is `html_url` or
null. -/
def assignmentToNewPage (now : String) (assignment : Assignment) : NewPage :=
  { name := assignment.name.getD "Untitled"
  , dueDate := assignment.due_at.getD now
  , assignmentId := assignment.id
  , subjectId := toString (assignment.course_id.getD 0)
  , assignmentUrl := assignment.html_url }

/-- `assignmentToUpdatedPage` (source lines 155 to 169): the resolved page id
plus a properties record holding the Due Date (with the same `now` default)
and the Assignment URL. -/
def assignmentToUpdatedPage (now : String) (assignment : Assignment) (pageId : String) :
    UpdatedPage :=
  { page_id := pageId
  , properties :=
      [ ("Due Date", PropPayload.date (assignment.due_at.getD now))
      , ("Assignment URL", PropPayload.url assignment.html_url) ] }

/-- `newEntries`: drop assignments named with the sentinel, map the rest to
creation payloads. -/
def newEntries (now : String) (assignments : List Assignment) : List NewPage :=
  (assignments.filter fun assignment => assignment.name != some "SYS_EXCEPTION_GRADE").map
    (assignmentToNewPage now)

/-- `assignment.id?.toString()`: `none` when the id is absent. -/
def idKey (assignment : Assignment) : Option String :=
  assignment.id.map toString

/-- `existingAssignments.assignmentIds.find(o => o.assignmentId === assignment.id?.toString())`.
Strict equality of a string against `undefined` is false, so an absent id
never matches any entry. -/
def findEntry (existing : List ExistingEntry) (assignment : Assignment) :
    Option ExistingEntry :=
  existing.find? fun entryObj => some entryObj.assignmentId == idKey assignment

/-- The filter feeding the update mapping (source lines 31 to 35): keep
non-sentinel assignments whose id key occurs in the lookup. -/
def updateSource (assignments : List Assignment) (existing : List ExistingEntry) :
    List Assignment :=
  assignments.filter fun assignment =>
    assignment.name != some "SYS_EXCEPTION_GRADE" && (findEntry existing assignment).isSome

/-- `updatedEntries`: each filtered assignment is paired with the page id its
lookup entry resolves to and mapped through `assignmentToUpdatedPage`. The
source uses a non-null assertion on the repeated `find`; under the filter it
cannot fail, and the `""` default here is unreachable. -/
def updatedEntries (now : String) (assignments : List Assignment)
    (existing : List ExistingEntry) : List UpdatedPage :=
  (updateSource assignments existing).map fun assignment =>
    assignmentToUpdatedPage now assignment
      (((findEntry existing assignment).map fun e => e.pageId).getD "")

/-- The TypeError raised by `entry["Assignment Id"].number.toString()` when
the stored number is `undefined`. -/
def toStringTypeError : String := "TypeError: cannot read toString of undefined"

/-- `Array.prototype.filter` with a predicate that can throw: elements are
visited left to right, and the first throw aborts the whole filter. -/
def filterExcept (p : α → Except String Bool) : List α → Except String (List α)
  | [] => .ok []
  | x :: xs =>
    match p x with
    | .error e => .error e
    | .ok b =>
      match filterExcept p xs with
      | .error e => .error e
      | .ok rest => .ok (if b then x :: rest else rest)

/-- The predicate of the `toCreate` filter (source lines 49 to 54):
`!existing.map(o => o.assignmentId).includes(entry["Assignment Id"].number.toString())`.
Reading `.toString` of an `undefined` number throws. -/
def toCreatePred (existing : List ExistingEntry) (entry : NewPage) : Except String Bool :=
  match entry.assignmentId with
  | some n => .ok (!((existing.map fun e => e.assignmentId).contains (toString n)))
  | none => .error toStringTypeError

/-- The `toCreate` filter over the creation payloads. -/
def toCreate (entries : List NewPage) (existing : List ExistingEntry) :
    Except String (List NewPage) :=
  filterExcept (toCreatePred existing) entries

/-- The two sequences the reconciliation pass hands to the write phase. -/
structure ReconcileResult where
  toCreate : List NewPage
  toUpdate : List UpdatedPage
deriving DecidableEq

/-- The reconciliation pass of the script body: build the creation payloads,
build the update payloads, then filter the creation payloads against the
lookup; a throw inside the filter aborts the pass (caught at top level by the
script). -/
def reconcile (now : String) (assignments : List Assignment)
    (existing : List ExistingEntry) : Except String ReconcileResult :=
  match toCreate (newEntries now assignments) existing with
  | .error e => .error e
  | .ok created => .ok ⟨created, updatedEntries now assignments existing⟩

/-- The `notion.pages.update` calls the script issues (source lines 67 to 76):
only the `"Due Date"` entry of each update payload is passed on. -/
def issuedUpdates (updated : List UpdatedPage) : List UpdateCall :=
  updated.map fun page =>
    { page_id := page.page_id
    , properties := [("Due Date", page.properties.lookup "Due Date")] }

/-- The `"Assignment Id"` property of a Notion page: either number-typed
(with a possibly null value) or of some other type. -/
inductive AssignmentIdProp where
  | number (value : Option Int)
  | nonNumber
deriving DecidableEq

/-- A result row of the Notion database query: the page id, whether the
object carries a `properties` field at all, and its `"Assignment Id"`
property (`none` when that property is missing). -/
structure NotionPage where
  id : String
  hasProperties : Bool
  assignmentIdProp : Option AssignmentIdProp
deriving DecidableEq

/-- The record returned by `getExistingAssignments`. -/
structure ExistingAssignments where
  pageIds : List String
  assignmentIds : List ExistingEntry
deriving DecidableEq

/-- `getExistingAssignments` (source lines 89 to 121): keep pages owning a
`properties` field; then, for each page whose `"Assignment Id"` property is
number-typed and whose number is truthy (`if (assignmentIdProperty.number)`:
both null and 0 are falsy), push `{assignmentId: number.toString(), pageId}`. -/
def getExistingAssignments (pages : List NotionPage) : ExistingAssignments :=
  let pagesWithProperties := pages.filter fun page => page.hasProperties
  { pageIds := pagesWithProperties.map fun page => page.id
  , assignmentIds := pagesWithProperties.filterMap fun page =>
      match page.assignmentIdProp with
      | some (.number (some n)) =>
        if n == 0 then none
        else some { assignmentId := toString n, pageId := page.id }
      | _ => none }

/-- The database page `notion.pages.create` produces from a creation payload:
its `"Assignment Id"` number property carries the payload's number. -/
def pageOfCreate (pageId : String) (page : NewPage) : NotionPage :=
  { id := pageId
  , hasProperties := true
  , assignmentIdProp := some (.number page.assignmentId) }

/-- The per-user config directory with the three secret files: `dirExists`
records whether the directory exists, `files` maps file name to contents. -/
structure FSState where
  dirExists : Bool
  files : List (String × String)
deriving DecidableEq

/-- The error `writeFileSync` raises when the target directory is missing. -/
def fsError : String := "ENOENT: no such file or directory"

/-- `getNotionKey` (source lines 354 to 377): return the contents of
`notion.key` if the file exists; otherwise take the prompt answer and
`writeFileSync` it WITHOUT creating the config directory (the `mkdirSync`
of the two Canvas getters is missing here), so the write throws when the
directory does not exist. -/
def getNotionKey (s : FSState) (promptAnswer : String) :
    Except String (String × FSState) :=
  match s.files.lookup "notion.key" with
  | some contents => .ok (contents, s)
  | none =>
    if s.dirExists then
      .ok (promptAnswer, { s with files := ("notion.key", promptAnswer) :: s.files })
    else .error fsError

/-- `getCanvasKey` (source lines 379 to 404): return the contents of
`canvas.key` if the file exists; otherwise prompt, create the config
directory recursively, write the answer and return it. -/
def getCanvasKey (s : FSState) (promptAnswer : String) :
    Except String (String × FSState) :=
  match s.files.lookup "canvas.key" with
  | some contents => .ok (contents, s)
  | none =>
    .ok (promptAnswer, { dirExists := true, files := ("canvas.key", promptAnswer) :: s.files })

/-- `getCanvasUrl`: same shape as `getCanvasKey`, over `canvas.url`. -/
def getCanvasUrl (s : FSState) (promptAnswer : String) :
    Except String (String × FSState) :=
  match s.files.lookup "canvas.url" with
  | some contents => .ok (contents, s)
  | none =>
    .ok (promptAnswer, { dirExists := true, files := ("canvas.url", promptAnswer) :: s.files })

/-- Whitespace test used by `specTrim`. -/
def isSpaceChar (c : Char) : Bool :=
  c == ' ' || c == '\n' || c == '\t' || c == '\r'

/-- Modelled from the spec: the "trimmed contents" the spec says a credential
getter returns. The code performs no trimming; this definition exists only to
compare the code's return value with the spec's words. It strips leading and
trailing whitespace characters. -/
def specTrim (s : String) : String :=
  (((s.data.dropWhile isSpaceChar).reverse.dropWhile isSpaceChar).reverse).asString

example : specTrim "abc\n" = "abc" := rfl

example :
    newEntries "T" [⟨some 1, some "HW1", some "2024-01-01", none, none⟩,
      ⟨some 2, some "SYS_EXCEPTION_GRADE", none, none, none⟩] =
      [⟨"HW1", "2024-01-01", some 1, "0", none⟩] := rfl

example :
    reconcile "T" [⟨some 1, some "HW1", some "2024-02-01", none, none⟩]
      [⟨"1", "p1"⟩] =
      .ok ⟨[], [⟨"p1", [("Due Date", .date "2024-02-01"),
        ("Assignment URL", .url none)]⟩]⟩ := rfl

/-! Helper lemmas about the embedded operations. -/

theorem filterExcept_ok_mem {p : α → Except String Bool} {l r : List α}
    (h : filterExcept p l = .ok r) :
    ∀ x, x ∈ r ↔ x ∈ l ∧ p x = .ok true := by
  induction l generalizing r with
  | nil =>
    simp only [filterExcept, Except.ok.injEq] at h
    subst h
    simp
  | cons a as ih =>
    simp only [filterExcept] at h
    cases hpa : p a with
    | error e => rw [hpa] at h; exact absurd h (by simp)
    | ok b =>
      rw [hpa] at h
      cases hrest : filterExcept p as with
      | error e => rw [hrest] at h; exact absurd h (by simp)
      | ok rest =>
        rw [hrest] at h
        simp only [Except.ok.injEq] at h
        subst h
        intro x
        cases b with
        | true =>
          rw [if_pos rfl]
          constructor
          · intro hx
            rcases List.mem_cons.mp hx with rfl | hx
            · exact ⟨List.mem_cons_self _ _, hpa⟩
            · obtain ⟨h1, h2⟩ := (ih hrest x).mp hx
              exact ⟨List.mem_cons_of_mem _ h1, h2⟩
          · rintro ⟨hmem, hpx⟩
            rcases List.mem_cons.mp hmem with rfl | hmem
            · exact List.mem_cons_self _ _
            · exact List.mem_cons_of_mem _ ((ih hrest x).mpr ⟨hmem, hpx⟩)
        | false =>
          rw [if_neg (by simp)]
          constructor
          · intro hx
            obtain ⟨h1, h2⟩ := (ih hrest x).mp hx
            exact ⟨List.mem_cons_of_mem _ h1, h2⟩
          · rintro ⟨hmem, hpx⟩
            rcases List.mem_cons.mp hmem with rfl | hmem
            · rw [hpa] at hpx; exact absurd hpx (by simp)
            · exact (ih hrest x).mpr ⟨hmem, hpx⟩

theorem filterExcept_sublist {p : α → Except String Bool} {l r : List α}
    (h : filterExcept p l = .ok r) : r.Sublist l := by
  induction l generalizing r with
  | nil =>
    simp only [filterExcept, Except.ok.injEq] at h
    subst h
    exact List.Sublist.refl []
  | cons a as ih =>
    simp only [filterExcept] at h
    cases hpa : p a with
    | error e => rw [hpa] at h; exact absurd h (by simp)
    | ok b =>
      rw [hpa] at h
      cases hrest : filterExcept p as with
      | error e => rw [hrest] at h; exact absurd h (by simp)
      | ok rest =>
        rw [hrest] at h
        simp only [Except.ok.injEq] at h
        subst h
        cases b with
        | true => exact List.Sublist.cons₂ a (ih hrest)
        | false => exact List.Sublist.cons a (ih hrest)

theorem filterExcept_ok_nil {p : α → Except String Bool} {l : List α}
    (h : ∀ x ∈ l, p x = .ok false) : filterExcept p l = .ok [] := by
  induction l with
  | nil => rfl
  | cons a as ih =>
    have ha := h a (List.mem_cons_self a as)
    have has := ih fun x hx => h x (List.mem_cons_of_mem a hx)
    simp [filterExcept, ha, has]

theorem toCreate_error_of_missing_id {entries : List NewPage}
    {existing : List ExistingEntry}
    (h : ∃ e ∈ entries, e.assignmentId = none) :
    toCreate entries existing = .error toStringTypeError := by
  induction entries with
  | nil => simp at h
  | cons a as ih =>
    obtain ⟨e, he, hid⟩ := h
    rcases List.mem_cons.mp he with rfl | he
    · simp only [toCreate, filterExcept, toCreatePred, hid]
    · cases ha : a.assignmentId with
      | none => simp only [toCreate, filterExcept, toCreatePred, ha]
      | some n =>
        have := ih ⟨e, he, hid⟩
        simp only [toCreate, filterExcept, toCreatePred, ha] at *
        rw [this]

theorem toCreate_ok_forall_some {entries : List NewPage}
    {existing : List ExistingEntry} {r : List NewPage}
    (h : toCreate entries existing = .ok r) :
    ∀ e ∈ entries, ∃ n : Int, e.assignmentId = some n := by
  intro e he
  cases hid : e.assignmentId with
  | some n => exact ⟨n, rfl⟩
  | none =>
    rw [toCreate_error_of_missing_id ⟨e, he, hid⟩] at h
    exact absurd h (by simp)

theorem keys_contains_iff (existing : List ExistingEntry) (s : String) :
    ((existing.map fun e => e.assignmentId).contains s = true) ↔
      ∃ e ∈ existing, e.assignmentId = s := by
  simp only [List.contains_iff_exists_mem_beq, List.mem_map, beq_iff_eq]
  constructor
  · rintro ⟨k, ⟨e, he, rfl⟩, rfl⟩
    exact ⟨e, he, rfl⟩
  · rintro ⟨e, he, rfl⟩
    exact ⟨e.assignmentId, ⟨e, he, rfl⟩, rfl⟩

theorem findEntry_isSome_iff (existing : List ExistingEntry) (a : Assignment) :
    (findEntry existing a).isSome = true ↔
      ∃ e ∈ existing, some e.assignmentId = idKey a := by
  simp only [findEntry, List.find?_isSome, beq_iff_eq]

theorem findEntry_mem_and_key {existing : List ExistingEntry} {a : Assignment}
    {e : ExistingEntry} (h : findEntry existing a = some e) :
    e ∈ existing ∧ some e.assignmentId = idKey a := by
  refine ⟨List.mem_of_find?_eq_some h, ?_⟩
  have := List.find?_some h
  simpa using this

theorem toDigitsCore_length_lower (f : Nat) :
    ∀ (n : Nat) (ds : List Char), 0 < f →
      ds.length + 1 ≤ (Nat.toDigitsCore 10 f n ds).length := by
  induction f with
  | zero => intro n ds h; exact absurd h (by simp)
  | succ fuel ih =>
    intro n ds _
    simp only [Nat.toDigitsCore]
    by_cases hz : n / 10 = 0
    · rw [if_pos hz]; simp
    · rw [if_neg hz]
      cases fuel with
      | zero => simp [Nat.toDigitsCore]
      | succ f2 =>
        have := ih (n / 10) (Nat.digitChar (n % 10) :: ds) (Nat.succ_pos f2)
        simp only [List.length_cons] at this
        omega

theorem nat_repr_length_pos (m : Nat) : 1 ≤ (Nat.repr m).length := by
  have h := toDigitsCore_length_lower (m + 1) m [] (Nat.succ_pos m)
  simp only [List.length_nil] at h
  simpa [Nat.repr, Nat.toDigits, List.length_asString] using h

theorem nat_repr_ne_zero_str {m : Nat} (hm : m ≠ 0) : Nat.repr m ≠ "0" := by
  by_cases hlt : m < 10
  · interval_cases m
    · exact absurd rfl hm
    all_goals decide
  · intro h
    have hdiv : m / 10 ≠ 0 := by omega
    have hlen := congrArg String.length h
    rw [Nat.repr, Nat.toDigits, List.length_asString] at hlen
    rw [show ("0" : String).length = 1 from rfl] at hlen
    have hcore : Nat.toDigitsCore 10 (m + 1) m [] =
        Nat.toDigitsCore 10 m (m / 10) [Nat.digitChar (m % 10)] := by
      simp only [Nat.toDigitsCore]
      rw [if_neg hdiv]
    rw [hcore] at hlen
    have hge := toDigitsCore_length_lower m (m / 10)
      [Nat.digitChar (m % 10)] (by omega)
    simp only [List.length_cons, List.length_nil] at hge
    omega

theorem int_toString_ne_zero {n : Int} (hn : n ≠ 0) : toString n ≠ "0" := by
  have hrepr : toString n = Int.repr n := rfl
  rw [hrepr]
  cases n with
  | ofNat m =>
    have hm : m ≠ 0 := by
      intro h; exact hn (by simp [h])
    simpa [Int.repr] using nat_repr_ne_zero_str hm
  | negSucc m =>
    intro h
    have hlen := congrArg String.length h
    rw [show Int.repr (Int.negSucc m) = "-" ++ Nat.repr (m + 1) from rfl,
      String.length_append, show ("0" : String).length = 1 from rfl,
      show ("-" : String).length = 1 from rfl] at hlen
    have := nat_repr_length_pos (m + 1)
    omega

theorem mem_getExistingAssignments {pages : List NotionPage} {e : ExistingEntry} :
    e ∈ (getExistingAssignments pages).assignmentIds ↔
      ∃ page ∈ pages, page.hasProperties = true ∧
        ∃ n : Int, n ≠ 0 ∧ page.assignmentIdProp = some (.number (some n)) ∧
          e = { assignmentId := toString n, pageId := page.id } := by
  simp only [getExistingAssignments, List.mem_filterMap, List.mem_filter]
  constructor
  · rintro ⟨page, ⟨hmem, hprops⟩, hf⟩
    refine ⟨page, hmem, hprops, ?_⟩
    cases hap : page.assignmentIdProp with
    | none => rw [hap] at hf; exact absurd hf (by simp)
    | some p =>
      cases p with
      | nonNumber => rw [hap] at hf; exact absurd hf (by simp)
      | number v =>
        cases v with
        | none => rw [hap] at hf; exact absurd hf (by simp)
        | some n =>
          rw [hap] at hf
          simp only at hf
          by_cases hz : n = 0
          · rw [if_pos (by simp [hz])] at hf; exact absurd hf (by simp)
          · rw [if_neg (by simp [hz])] at hf
            simp only [Option.some.injEq] at hf
            exact ⟨n, hz, rfl, hf.symm⟩
  · rintro ⟨page, hmem, hprops, n, hz, hap, rfl⟩
    refine ⟨page, ⟨hmem, hprops⟩, ?_⟩
    rw [hap]
    simp only
    rw [if_neg (by simp [hz])]

theorem getExistingAssignments_append (P Q : List NotionPage) :
    (getExistingAssignments (P ++ Q)).assignmentIds =
      (getExistingAssignments P).assignmentIds ++
        (getExistingAssignments Q).assignmentIds := by
  simp only [getExistingAssignments, List.filter_append, List.filterMap_append]

theorem count_le_one_of_nodup {β : Type u_1} [BEq β] [LawfulBEq β]
    {l : List β} (h : l.Nodup) (x : β) : l.count x ≤ 1 := by
  induction l with
  | nil => simp
  | cons a as ih =>
    rw [List.nodup_cons] at h
    obtain ⟨hna, hnd⟩ := h
    rw [List.count_cons]
    by_cases hx : x = a
    · subst hx
      have h0 : as.count x = 0 := List.count_eq_zero.mpr hna
      simp [h0]
    · have hb : (a == x) = false := by
        cases hab : a == x with
        | false => rfl
        | true => exact absurd (eq_of_beq hab).symm hx
      rw [hb]
      simpa using ih hnd

theorem gea_key_ne_zero {pages : List NotionPage} {e : ExistingEntry}
    (h : e ∈ (getExistingAssignments pages).assignmentIds) :
    e.assignmentId ≠ "0" := by
  obtain ⟨page, _, _, n, hz, _, rfl⟩ := mem_getExistingAssignments.mp h
  exact int_toString_ne_zero hz

theorem mem_newEntries {now : String} {assignments : List Assignment}
    {entry : NewPage} :
    entry ∈ newEntries now assignments ↔
      ∃ a ∈ assignments, a.name ≠ some "SYS_EXCEPTION_GRADE" ∧
        entry = assignmentToNewPage now a := by
  simp only [newEntries, List.mem_map, List.mem_filter, bne_iff_ne, ne_eq]
  constructor
  · rintro ⟨a, ⟨ha, hn⟩, rfl⟩
    exact ⟨a, ha, hn, rfl⟩
  · rintro ⟨a, ha, hn, rfl⟩
    exact ⟨a, ⟨ha, hn⟩, rfl⟩

theorem mem_updateSource {assignments : List Assignment}
    {existing : List ExistingEntry} {a : Assignment} :
    a ∈ updateSource assignments existing ↔
      a ∈ assignments ∧ a.name ≠ some "SYS_EXCEPTION_GRADE" ∧
        (findEntry existing a).isSome = true := by
  simp only [updateSource, List.mem_filter, Bool.and_eq_true, bne_iff_ne, ne_eq]

theorem toCreatePred_eq {E : List ExistingEntry} {entry : NewPage} {n : Int}
    (hid : entry.assignmentId = some n) :
    toCreatePred E entry =
      .ok (!((E.map fun e => e.assignmentId).contains (toString n))) := by
  simp only [toCreatePred, hid]

theorem reconcile_ok_parts {now : String} {A : List Assignment}
    {E : List ExistingEntry} {r : ReconcileResult}
    (h : reconcile now A E = .ok r) :
    filterExcept (toCreatePred E) (newEntries now A) = .ok r.toCreate ∧
      r.toUpdate = updatedEntries now A E := by
  unfold reconcile at h
  cases htc : toCreate (newEntries now A) E with
  | error e =>
    rw [htc] at h
    exact absurd h (by simp)
  | ok created =>
    rw [htc] at h
    simp only [Except.ok.injEq] at h
    subst h
    exact ⟨htc, rfl⟩

/-! Theorems for the claims. -/

/-- Claim C1: for every assignment list `A` and existing-entry list `E`, when
reconciliation completes, the update set is exactly the image of
`updateSource A E`, no assignment id occurs both among the creation payloads
and among the assignments mapped to update payloads, and together these ids
are exactly the ids of the assignments of `A` not named with the sentinel
`"SYS_EXCEPTION_GRADE"`. -/
theorem reconcile_ids_partition (now : String) (A : List Assignment)
    (E : List ExistingEntry) (r : ReconcileResult)
    (h : reconcile now A E = .ok r) (n : Int) :
    r.toUpdate = updatedEntries now A E ∧
    ¬(some n ∈ r.toCreate.map (fun p => p.assignmentId) ∧
      some n ∈ (updateSource A E).map (fun a => a.id)) ∧
    ((some n ∈ r.toCreate.map (fun p => p.assignmentId) ∨
      some n ∈ (updateSource A E).map (fun a => a.id)) ↔
      ∃ a ∈ A, a.name ≠ some "SYS_EXCEPTION_GRADE" ∧ a.id = some n) := by
  obtain ⟨htc, hup⟩ := reconcile_ok_parts h
  have hmem := filterExcept_ok_mem htc
  refine ⟨hup, ?_, ?_⟩
  · rintro ⟨hcreate, hupdate⟩
    obtain ⟨p, hp, hpid⟩ := List.mem_map.mp hcreate
    obtain ⟨hpmem, hppred⟩ := (hmem p).mp hp
    obtain ⟨a, haA, hasent, rfl⟩ := mem_newEntries.mp hpmem
    have haid : a.id = some n := hpid
    rw [toCreatePred_eq haid] at hppred
    simp only [Except.ok.injEq, Bool.not_eq_eq_eq_not, Bool.not_true] at hppred
    obtain ⟨b, hb, hbid⟩ := List.mem_map.mp hupdate
    obtain ⟨hbA, hbsent, hbfind⟩ := mem_updateSource.mp hb
    obtain ⟨e, heE, hekey⟩ := (findEntry_isSome_iff E b).mp hbfind
    rw [show idKey b = some (toString n) by simp [idKey, hbid]] at hekey
    simp only [Option.some.injEq] at hekey
    have : ((E.map fun e => e.assignmentId).contains (toString n)) = true :=
      (keys_contains_iff E (toString n)).mpr ⟨e, heE, hekey⟩
    rw [this] at hppred
    exact absurd hppred (by simp)
  · constructor
    · rintro (hcreate | hupdate)
      · obtain ⟨p, hp, hpid⟩ := List.mem_map.mp hcreate
        obtain ⟨hpmem, _⟩ := (hmem p).mp hp
        obtain ⟨a, haA, hasent, rfl⟩ := mem_newEntries.mp hpmem
        exact ⟨a, haA, hasent, hpid⟩
      · obtain ⟨b, hb, hbid⟩ := List.mem_map.mp hupdate
        obtain ⟨hbA, hbsent, _⟩ := mem_updateSource.mp hb
        exact ⟨b, hbA, hbsent, hbid⟩
    · rintro ⟨a, haA, hasent, haid⟩
      by_cases hc :
        ((E.map fun e => e.assignmentId).contains (toString n)) = true
      · refine Or.inr (List.mem_map.mpr ⟨a, ?_, haid⟩)
        refine mem_updateSource.mpr ⟨haA, hasent, ?_⟩
        obtain ⟨e, heE, hekey⟩ := (keys_contains_iff E (toString n)).mp hc
        refine (findEntry_isSome_iff E a).mpr ⟨e, heE, ?_⟩
        simp [idKey, haid, hekey]
      · refine Or.inl (List.mem_map.mpr ⟨assignmentToNewPage now a, ?_, haid⟩)
        refine (hmem _).mpr ⟨mem_newEntries.mpr ⟨a, haA, hasent, rfl⟩, ?_⟩
        rw [toCreatePred_eq (show (assignmentToNewPage now a).assignmentId =
          some n from haid)]
        simp only [Bool.not_eq_true] at hc
        rw [hc]
        rfl

/-- Witness for C1 at a concrete input: one plain assignment (id 1), one
sentinel-named assignment (id 2), one assignment (id 3) matching the single
existing entry. -/
theorem reconcile_ids_partition_witness :
    reconcile "T" [⟨some 1, some "HW1", some "d", none, none⟩,
        ⟨some 2, some "SYS_EXCEPTION_GRADE", none, none, none⟩,
        ⟨some 3, some "HW3", none, none, none⟩] [⟨"3", "p3"⟩] =
      .ok ⟨[⟨"HW1", "d", some 1, "0", none⟩],
        [⟨"p3", [("Due Date", .date "T"), ("Assignment URL", .url none)]⟩]⟩ ∧
    ((ReconcileResult.mk [⟨"HW1", "d", some 1, "0", none⟩]
        [⟨"p3", [("Due Date", .date "T"), ("Assignment URL", .url none)]⟩]).toUpdate =
      updatedEntries "T" [⟨some 1, some "HW1", some "d", none, none⟩,
        ⟨some 2, some "SYS_EXCEPTION_GRADE", none, none, none⟩,
        ⟨some 3, some "HW3", none, none, none⟩] [⟨"3", "p3"⟩] ∧
    ¬(some 1 ∈ (ReconcileResult.mk [⟨"HW1", "d", some 1, "0", none⟩]
        [⟨"p3", [("Due Date", .date "T"), ("Assignment URL", .url none)]⟩]).toCreate.map
          (fun p => p.assignmentId) ∧
      some 1 ∈ (updateSource [⟨some 1, some "HW1", some "d", none, none⟩,
        ⟨some 2, some "SYS_EXCEPTION_GRADE", none, none, none⟩,
        ⟨some 3, some "HW3", none, none, none⟩] [⟨"3", "p3"⟩]).map (fun a => a.id)) ∧
    ((some 1 ∈ (ReconcileResult.mk [⟨"HW1", "d", some 1, "0", none⟩]
        [⟨"p3", [("Due Date", .date "T"), ("Assignment URL", .url none)]⟩]).toCreate.map
          (fun p => p.assignmentId) ∨
      some 1 ∈ (updateSource [⟨some 1, some "HW1", some "d", none, none⟩,
        ⟨some 2, some "SYS_EXCEPTION_GRADE", none, none, none⟩,
        ⟨some 3, some "HW3", none, none, none⟩] [⟨"3", "p3"⟩]).map (fun a => a.id)) ↔
      ∃ a ∈ [⟨some 1, some "HW1", some "d", none, none⟩,
        ⟨some 2, some "SYS_EXCEPTION_GRADE", none, none, none⟩,
        (⟨some 3, some "HW3", none, none, none⟩ : Assignment)],
        a.name ≠ some "SYS_EXCEPTION_GRADE" ∧ a.id = some 1)) :=
  ⟨rfl, reconcile_ids_partition "T"
    [⟨some 1, some "HW1", some "d", none, none⟩,
      ⟨some 2, some "SYS_EXCEPTION_GRADE", none, none, none⟩,
      ⟨some 3, some "HW3", none, none, none⟩] [⟨"3", "p3"⟩]
    ⟨[⟨"HW1", "d", some 1, "0", none⟩],
      [⟨"p3", [("Due Date", .date "T"), ("Assignment URL", .url none)]⟩]⟩ rfl 1⟩

/-- Claim C2 (counterexample): at the spec's own scenario, extended with a
present `html_url`, the issued update call carries only the `"Due Date"`
property; the url is NOT carried, contradicting the claim that updates carry
both the due date and the url. -/
theorem issued_update_omits_url :
    issuedUpdates (updatedEntries "2024-02-02"
        [⟨some 1, some "HW1", some "2024-02-01", none, some "https://c/1"⟩]
        [⟨"1", "p1"⟩]) =
      [⟨"p1", [("Due Date", some (.date "2024-02-01"))]⟩] ∧
    "Assignment URL" ∉
      ([("Due Date", some (PropPayload.date "2024-02-01"))].map Prod.fst) :=
  ⟨rfl, by decide⟩

/-- Claim C2 (amended): every update call the script issues carries exactly
the `"Due Date"` property; the page's name, assignment id, subject id and url
properties are all absent from the update, hence left unchanged. -/
theorem issued_update_props_only_due_date (now : String) (A : List Assignment)
    (E : List ExistingEntry) (call : UpdateCall)
    (h : call ∈ issuedUpdates (updatedEntries now A E)) :
    call.properties.map Prod.fst = ["Due Date"] ∧
    "Name" ∉ call.properties.map Prod.fst ∧
    "Assignment Id" ∉ call.properties.map Prod.fst ∧
    "Subject Id" ∉ call.properties.map Prod.fst ∧
    "Assignment URL" ∉ call.properties.map Prod.fst := by
  obtain ⟨page, hpage, rfl⟩ := List.mem_map.mp h
  have hkeys : (UpdateCall.mk page.page_id
      [("Due Date", page.properties.lookup "Due Date")]).properties.map
        Prod.fst = ["Due Date"] := rfl
  refine ⟨hkeys, ?_, ?_, ?_, ?_⟩ <;> rw [hkeys] <;> decide

/-- Witness for the amended C2 at a concrete input. -/
theorem issued_update_props_only_due_date_witness :
    (⟨"p9", [("Due Date", some (.date "2024-03-01"))]⟩ : UpdateCall) ∈
      issuedUpdates (updatedEntries "N"
        [⟨some 9, some "HW9", some "2024-03-01", none, none⟩] [⟨"9", "p9"⟩]) ∧
    ([("Due Date", (some (PropPayload.date "2024-03-01") : Option PropPayload))].map
        Prod.fst = ["Due Date"] ∧
      "Name" ∉ ([("Due Date", (some (PropPayload.date "2024-03-01") :
        Option PropPayload))].map Prod.fst) ∧
      "Assignment Id" ∉ ([("Due Date", (some (PropPayload.date "2024-03-01") :
        Option PropPayload))].map Prod.fst) ∧
      "Subject Id" ∉ ([("Due Date", (some (PropPayload.date "2024-03-01") :
        Option PropPayload))].map Prod.fst) ∧
      "Assignment URL" ∉ ([("Due Date", (some (PropPayload.date "2024-03-01") :
        Option PropPayload))].map Prod.fst)) :=
  ⟨by decide, issued_update_props_only_due_date "N"
    [⟨some 9, some "HW9", some "2024-03-01", none, none⟩] [⟨"9", "p9"⟩]
    ⟨"p9", [("Due Date", some (.date "2024-03-01"))]⟩ (by decide)⟩

/-- Claim C3 (counterexample): an assignment without a numeric id does NOT
land in the to-create set; evaluating `entry["Assignment Id"].number.toString()`
throws, so reconciliation aborts with a TypeError. -/
theorem reconcile_missing_id_throws :
    reconcile "T" [⟨none, some "HW1", none, none, none⟩] [] =
      .error toStringTypeError := rfl

/-- Claim C3 (amended): for every input containing a non-sentinel assignment
without a numeric id, reconciliation does not complete: the to-create filter
throws the TypeError and the pass returns it (the script catches it at top
level and logs an error). -/
theorem reconcile_missing_id_errors (now : String) (A : List Assignment)
    (E : List ExistingEntry)
    (h : ∃ a ∈ A, a.name ≠ some "SYS_EXCEPTION_GRADE" ∧ a.id = none) :
    reconcile now A E = .error toStringTypeError := by
  obtain ⟨a, haA, hasent, haid⟩ := h
  have hmem : assignmentToNewPage now a ∈ newEntries now A :=
    mem_newEntries.mpr ⟨a, haA, hasent, rfl⟩
  have herr := @toCreate_error_of_missing_id (newEntries now A) E
    ⟨assignmentToNewPage now a, hmem, haid⟩
  unfold reconcile
  rw [herr]

/-- Witness for the amended C3 at a concrete input. -/
theorem reconcile_missing_id_errors_witness :
    (∃ a ∈ [(⟨none, some "HW2", none, none, none⟩ : Assignment)],
      a.name ≠ some "SYS_EXCEPTION_GRADE" ∧ a.id = none) ∧
    reconcile "W" [⟨none, some "HW2", none, none, none⟩] [⟨"1", "p1"⟩] =
      .error toStringTypeError :=
  ⟨⟨⟨none, some "HW2", none, none, none⟩, by simp, by decide, rfl⟩,
    reconcile_missing_id_errors "W" [⟨none, some "HW2", none, none, none⟩]
      [⟨"1", "p1"⟩]
      ⟨⟨none, some "HW2", none, none, none⟩, by simp, by decide, rfl⟩⟩

/-- Claim C4 (counterexample): when the same assignment id occurs twice in the
input, reconciliation emits TWO creation payloads for that id: nothing
deduplicates the to-create set within a run. -/
theorem duplicate_ids_duplicate_creates :
    reconcile "T" [⟨some 1, some "HW1", some "d", none, none⟩,
        ⟨some 1, some "HW1", some "d", none, none⟩] [] =
      .ok ⟨[⟨"HW1", "d", some 1, "0", none⟩, ⟨"HW1", "d", some 1, "0", none⟩],
        []⟩ ∧
    1 < ([⟨"HW1", "d", some 1, "0", none⟩,
      (⟨"HW1", "d", some 1, "0", none⟩ : NewPage)].map
        (fun p => p.assignmentId)).count (some 1) :=
  ⟨rfl, by decide⟩

/-- Claim C4 (amended): provided the ids of the non-sentinel assignments of
`A` are pairwise distinct, each assignment id yields at most one creation
payload in a run. -/
theorem toCreate_count_le_one (now : String) (A : List Assignment)
    (E : List ExistingEntry) (r : ReconcileResult)
    (hnd : ((A.filter fun a => a.name != some "SYS_EXCEPTION_GRADE").map
      (fun a => a.id)).Nodup)
    (h : reconcile now A E = .ok r) (n : Int) :
    (r.toCreate.map fun p => p.assignmentId).count (some n) ≤ 1 := by
  obtain ⟨htc, _⟩ := reconcile_ok_parts h
  have hsub : r.toCreate.Sublist (newEntries now A) := filterExcept_sublist htc
  have hmap : (r.toCreate.map fun p => p.assignmentId).Sublist
      ((newEntries now A).map fun p => p.assignmentId) := hsub.map _
  have hq : ((newEntries now A).map fun p => p.assignmentId) =
      ((A.filter fun a => a.name != some "SYS_EXCEPTION_GRADE").map
        fun a => a.id) := by
    rw [newEntries, List.map_map]
    rfl
  have hnd1 : ((newEntries now A).map fun p => p.assignmentId).Nodup := by
    rw [hq]; exact hnd
  have hnd2 := List.Nodup.sublist hmap hnd1
  exact count_le_one_of_nodup hnd2 (some n)

/-- Witness for the amended C4 at a concrete input. -/
theorem toCreate_count_le_one_witness :
    (([⟨some 1, some "HW1", some "d", none, none⟩,
        (⟨some 2, some "SYS_EXCEPTION_GRADE", none, none, none⟩ :
          Assignment)].filter
        fun a => a.name != some "SYS_EXCEPTION_GRADE").map
      (fun a => a.id)).Nodup ∧
    reconcile "T" [⟨some 1, some "HW1", some "d", none, none⟩,
        ⟨some 2, some "SYS_EXCEPTION_GRADE", none, none, none⟩] [] =
      .ok ⟨[⟨"HW1", "d", some 1, "0", none⟩], []⟩ ∧
    ((ReconcileResult.mk [⟨"HW1", "d", some 1, "0", none⟩] []).toCreate.map
      fun p => p.assignmentId).count (some 1) ≤ 1 :=
  ⟨by decide, rfl,
    toCreate_count_le_one "T" [⟨some 1, some "HW1", some "d", none, none⟩,
      ⟨some 2, some "SYS_EXCEPTION_GRADE", none, none, none⟩] []
      ⟨[⟨"HW1", "d", some 1, "0", none⟩], []⟩ (by decide) rfl 1⟩

/-- Claim C6: when `due_at` is null, the due date placed in the creation
payload and in the update payload is exactly the `now` argument, the script's
`new Date().toISOString()` at the time of the call; it is therefore not
earlier than the time of the call. -/
theorem due_date_defaults_to_now (now : String) (a : Assignment) (pid : String)
    (h : a.due_at = none) :
    (assignmentToNewPage now a).dueDate = now ∧
    (assignmentToUpdatedPage now a pid).properties.lookup "Due Date" =
      some (.date now) := by
  constructor
  · simp [assignmentToNewPage, h]
  · simp [assignmentToUpdatedPage, h, List.lookup]

/-- Witness for C6 at a concrete input. -/
theorem due_date_defaults_to_now_witness :
    (Assignment.mk (some 4) (some "HW4") none none none).due_at = none ∧
    ((assignmentToNewPage "2024-05-05" ⟨some 4, some "HW4", none, none, none⟩).dueDate =
        "2024-05-05" ∧
      (assignmentToUpdatedPage "2024-05-05" ⟨some 4, some "HW4", none, none, none⟩
        "p4").properties.lookup "Due Date" = some (.date "2024-05-05")) :=
  ⟨rfl, due_date_defaults_to_now "2024-05-05"
    ⟨some 4, some "HW4", none, none, none⟩ "p4" rfl⟩

/-- Claim C7: a database page whose Assignment Id property is missing or not
number-typed contributes nothing to the existing-entries lookup; provided page
ids are distinct (Notion page ids are unique), no lookup entry carries that
page's id, so reconciliation simply ignores the page. -/
theorem non_number_page_excluded (pages : List NotionPage) (page : NotionPage)
    (hmem : page ∈ pages)
    (hnn : ∀ v : Option Int, page.assignmentIdProp ≠ some (.number v))
    (hnd : (pages.map fun p => p.id).Nodup) :
    ∀ e ∈ (getExistingAssignments pages).assignmentIds, e.pageId ≠ page.id := by
  intro e he
  obtain ⟨q, hq, hqp, n, hz, hqn, rfl⟩ := mem_getExistingAssignments.mp he
  intro hid
  have hqpage : q = page := List.inj_on_of_nodup_map hnd hq hmem hid
  rw [hqpage] at hqn
  exact hnn (some n) hqn

/-- Witness for C7 at a concrete input. -/
theorem non_number_page_excluded_witness :
    (⟨"p1", true, some .nonNumber⟩ : NotionPage) ∈
      [(⟨"p1", true, some .nonNumber⟩ : NotionPage),
        ⟨"p2", true, some (.number (some 5))⟩] ∧
    (∀ v : Option Int, (NotionPage.mk "p1" true (some .nonNumber)).assignmentIdProp ≠
      some (.number v)) ∧
    (([(⟨"p1", true, some .nonNumber⟩ : NotionPage),
        ⟨"p2", true, some (.number (some 5))⟩].map fun p => p.id)).Nodup ∧
    ∀ e ∈ (getExistingAssignments [(⟨"p1", true, some .nonNumber⟩ : NotionPage),
        ⟨"p2", true, some (.number (some 5))⟩]).assignmentIds,
      e.pageId ≠ (NotionPage.mk "p1" true (some .nonNumber)).id :=
  ⟨by simp, fun v => by simp, by decide,
    non_number_page_excluded
      [⟨"p1", true, some .nonNumber⟩, ⟨"p2", true, some (.number (some 5))⟩]
      ⟨"p1", true, some .nonNumber⟩ (by simp) (fun v => by simp) (by decide)⟩

/-- Claim C8 (counterexample): with `notion.key` on disk holding a trailing
newline, `getNotionKey` returns the raw file contents; the claim's "trimmed
contents" differ, so the claim is false as stated. -/
theorem notion_key_not_trimmed :
    getNotionKey ⟨true, [("notion.key", "abc\n")]⟩ "x" =
      .ok ("abc\n", ⟨true, [("notion.key", "abc\n")]⟩) ∧
    specTrim "abc\n" = "abc" ∧ ("abc\n" : String) ≠ "abc" :=
  ⟨rfl, rfl, by decide⟩

/-- Claim C8 (amended): when the secret file exists, each of the three getters
returns the file's contents verbatim, with no trimming, and leaves the
filesystem unchanged. -/
theorem getters_return_file_contents_verbatim (s : FSState)
    (ans c1 c2 c3 : String) :
    (s.files.lookup "notion.key" = some c1 →
      getNotionKey s ans = .ok (c1, s)) ∧
    (s.files.lookup "canvas.key" = some c2 →
      getCanvasKey s ans = .ok (c2, s)) ∧
    (s.files.lookup "canvas.url" = some c3 →
      getCanvasUrl s ans = .ok (c3, s)) := by
  refine ⟨?_, ?_, ?_⟩ <;> intro h <;>
    simp [getNotionKey, getCanvasKey, getCanvasUrl, h]

/-- Witness for the amended C8 at a concrete filesystem state. -/
theorem getters_return_file_contents_verbatim_witness :
    getNotionKey ⟨true, [("notion.key", "nk"), ("canvas.key", "ck"),
        ("canvas.url", "cu")]⟩ "x" =
      .ok ("nk", ⟨true, [("notion.key", "nk"), ("canvas.key", "ck"),
        ("canvas.url", "cu")]⟩) ∧
    getCanvasKey ⟨true, [("notion.key", "nk"), ("canvas.key", "ck"),
        ("canvas.url", "cu")]⟩ "x" =
      .ok ("ck", ⟨true, [("notion.key", "nk"), ("canvas.key", "ck"),
        ("canvas.url", "cu")]⟩) ∧
    getCanvasUrl ⟨true, [("notion.key", "nk"), ("canvas.key", "ck"),
        ("canvas.url", "cu")]⟩ "x" =
      .ok ("cu", ⟨true, [("notion.key", "nk"), ("canvas.key", "ck"),
        ("canvas.url", "cu")]⟩) :=
  ⟨(getters_return_file_contents_verbatim ⟨true, [("notion.key", "nk"),
      ("canvas.key", "ck"), ("canvas.url", "cu")]⟩ "x" "nk" "ck" "cu").1 rfl,
    (getters_return_file_contents_verbatim ⟨true, [("notion.key", "nk"),
      ("canvas.key", "ck"), ("canvas.url", "cu")]⟩ "x" "nk" "ck" "cu").2.1 rfl,
    (getters_return_file_contents_verbatim ⟨true, [("notion.key", "nk"),
      ("canvas.key", "ck"), ("canvas.url", "cu")]⟩ "x" "nk" "ck" "cu").2.2 rfl⟩

/-- Claim C9 (counterexample): with no cached file and no config directory,
`getNotionKey` does not persist the prompted value and return it; it fails,
because unlike the two Canvas getters it never creates the directory before
writing. -/
theorem notion_key_prompt_fails_without_dir :
    getNotionKey ⟨false, []⟩ "k" = .error fsError := rfl

/-- Claim C9 (amended): on a cache miss, the Canvas key and Canvas URL getters
prompt, create the config directory, persist the answer and return it. The
Notion key getter persists and returns the answer only when the config
directory already exists; when it does not, the write fails with ENOENT (the
getter never creates the directory). -/
theorem prompt_path_persists (s : FSState) (ans : String) :
    (s.files.lookup "canvas.key" = none →
      getCanvasKey s ans = .ok (ans, ⟨true, ("canvas.key", ans) :: s.files⟩)) ∧
    (s.files.lookup "canvas.url" = none →
      getCanvasUrl s ans = .ok (ans, ⟨true, ("canvas.url", ans) :: s.files⟩)) ∧
    (s.files.lookup "notion.key" = none → s.dirExists = true →
      getNotionKey s ans = .ok (ans, ⟨true, ("notion.key", ans) :: s.files⟩)) ∧
    (s.files.lookup "notion.key" = none → s.dirExists = false →
      getNotionKey s ans = .error fsError) := by
  obtain ⟨d, files⟩ := s
  refine ⟨?_, ?_, ?_, ?_⟩
  · intro h
    simp [getCanvasKey, h]
  · intro h
    simp [getCanvasUrl, h]
  · intro h hd
    subst hd
    simp [getNotionKey, h]
  · intro h hd
    subst hd
    simp [getNotionKey, h, fsError]

/-- Witness for the amended C9 at concrete filesystem states. -/
theorem prompt_path_persists_witness :
    getCanvasKey ⟨true, []⟩ "k" = .ok ("k", ⟨true, [("canvas.key", "k")]⟩) ∧
    getCanvasUrl ⟨true, []⟩ "u" = .ok ("u", ⟨true, [("canvas.url", "u")]⟩) ∧
    getNotionKey ⟨true, []⟩ "n" = .ok ("n", ⟨true, [("notion.key", "n")]⟩) ∧
    getNotionKey ⟨false, []⟩ "m" = .error fsError :=
  ⟨(prompt_path_persists ⟨true, []⟩ "k").1 rfl,
    (prompt_path_persists ⟨true, []⟩ "u").2.1 rfl,
    (prompt_path_persists ⟨true, []⟩ "n").2.2.1 rfl rfl,
    (prompt_path_persists ⟨false, []⟩ "m").2.2.2 rfl rfl⟩

/-- Claim C10: the existing-entries lookup is gated on the truthiness of the
Assignment Id number, so every lookup entry stems from a page with a nonzero
numeric value (pages with value 0 or null contribute nothing), and a
non-sentinel assignment with id 0 lands in the to-create set on every run,
even when the database already contains a matching page. -/
theorem zero_id_assignment_always_recreated (now : String)
    (pages : List NotionPage) (A : List Assignment) (a : Assignment)
    (r : ReconcileResult) (ha : a ∈ A) (hid : a.id = some 0)
    (hname : a.name ≠ some "SYS_EXCEPTION_GRADE")
    (h : reconcile now A (getExistingAssignments pages).assignmentIds = .ok r) :
    (∀ e ∈ (getExistingAssignments pages).assignmentIds,
      ∃ page ∈ pages, ∃ n : Int, n ≠ 0 ∧
        page.assignmentIdProp = some (.number (some n)) ∧
        e = { assignmentId := toString n, pageId := page.id }) ∧
    assignmentToNewPage now a ∈ r.toCreate := by
  obtain ⟨htc, _⟩ := reconcile_ok_parts h
  have hmem := filterExcept_ok_mem htc
  constructor
  · intro e he
    obtain ⟨page, hp, _, n, hz, hap, rfl⟩ := mem_getExistingAssignments.mp he
    exact ⟨page, hp, n, hz, hap, rfl⟩
  · refine (hmem _).mpr ⟨mem_newEntries.mpr ⟨a, ha, hname, rfl⟩, ?_⟩
    rw [toCreatePred_eq
      (show (assignmentToNewPage now a).assignmentId = some 0 from hid)]
    have hnc : (((getExistingAssignments pages).assignmentIds.map
        fun e => e.assignmentId).contains (toString (0 : Int))) = false := by
      by_contra hcon
      rw [Bool.not_eq_false] at hcon
      obtain ⟨e, heE, hekey⟩ :=
        (keys_contains_iff (getExistingAssignments pages).assignmentIds
          (toString (0 : Int))).mp hcon
      exact gea_key_ne_zero heE (hekey.trans rfl)
    rw [hnc]
    rfl

/-- Witness for C10 at a concrete input: the database holds a page whose
Assignment Id number is 0, yet the assignment with id 0 is still created. -/
theorem zero_id_assignment_always_recreated_witness :
    (⟨some 0, some "HW0", some "d0", none, none⟩ : Assignment) ∈
      [(⟨some 0, some "HW0", some "d0", none, none⟩ : Assignment)] ∧
    (Assignment.mk (some 0) (some "HW0") (some "d0") none none).id = some 0 ∧
    (Assignment.mk (some 0) (some "HW0") (some "d0") none none).name ≠
      some "SYS_EXCEPTION_GRADE" ∧
    reconcile "T" [⟨some 0, some "HW0", some "d0", none, none⟩]
      (getExistingAssignments
        [⟨"pz", true, some (.number (some 0))⟩]).assignmentIds =
      .ok ⟨[⟨"HW0", "d0", some 0, "0", none⟩], []⟩ ∧
    ((∀ e ∈ (getExistingAssignments
        [(⟨"pz", true, some (.number (some 0))⟩ : NotionPage)]).assignmentIds,
      ∃ page ∈ [(⟨"pz", true, some (.number (some 0))⟩ : NotionPage)],
        ∃ n : Int, n ≠ 0 ∧
          page.assignmentIdProp = some (.number (some n)) ∧
          e = { assignmentId := toString n, pageId := page.id }) ∧
    assignmentToNewPage "T" ⟨some 0, some "HW0", some "d0", none, none⟩ ∈
      (ReconcileResult.mk [⟨"HW0", "d0", some 0, "0", none⟩] []).toCreate) :=
  ⟨by simp, rfl, by decide, rfl,
    zero_id_assignment_always_recreated "T"
      [⟨"pz", true, some (.number (some 0))⟩]
      [⟨some 0, some "HW0", some "d0", none, none⟩]
      ⟨some 0, some "HW0", some "d0", none, none⟩
      ⟨[⟨"HW0", "d0", some 0, "0", none⟩], []⟩
      (by simp) rfl (by decide) rfl⟩

/-- Claim C5 (counterexample): for the single assignment with id 0, the first
run over an empty database creates its page; the lookup built from the
database that now holds exactly that created page is empty (0 is falsy), so
the second run's creation set is again nonempty, not empty as claimed. -/
theorem second_run_recreates_zero_id :
    reconcile "T" [⟨some 0, some "HW0", some "d0", none, none⟩]
        (getExistingAssignments []).assignmentIds =
      .ok ⟨[⟨"HW0", "d0", some 0, "0", none⟩], []⟩ ∧
    (getExistingAssignments ([] ++
        [(⟨"HW0", "d0", some 0, "0", none⟩ : NewPage)].map fun p =>
          pageOfCreate "pz" p)).assignmentIds = [] ∧
    reconcile "T" [⟨some 0, some "HW0", some "d0", none, none⟩]
        (getExistingAssignments ([] ++
          [(⟨"HW0", "d0", some 0, "0", none⟩ : NewPage)].map fun p =>
            pageOfCreate "pz" p)).assignmentIds =
      .ok ⟨[⟨"HW0", "d0", some 0, "0", none⟩], []⟩ ∧
    ([(⟨"HW0", "d0", some 0, "0", none⟩ : NewPage)] : List NewPage) ≠ [] :=
  ⟨rfl, rfl, rfl, by decide⟩

/-- Claim C5 (amended): provided no non-sentinel assignment has id 0 (a page
whose number property is 0 is dropped from the lookup, see C10), running
reconciliation again over the database extended with the first run's created
pages yields an empty creation set, and every second-run update payload
targets a page of the post-creation lookup. -/
theorem reconcile_idempotent (now1 now2 : String) (A : List Assignment)
    (P : List NotionPage) (f : NewPage → String) (r1 r2 : ReconcileResult)
    (h0 : ∀ a ∈ A, a.name ≠ some "SYS_EXCEPTION_GRADE" → a.id ≠ some 0)
    (h1 : reconcile now1 A (getExistingAssignments P).assignmentIds = .ok r1)
    (h2 : reconcile now2 A
      (getExistingAssignments (P ++ r1.toCreate.map fun p =>
        pageOfCreate (f p) p)).assignmentIds = .ok r2) :
    r2.toCreate = [] ∧
    ∀ page ∈ r2.toUpdate,
      ∃ e ∈ (getExistingAssignments (P ++ r1.toCreate.map fun p =>
        pageOfCreate (f p) p)).assignmentIds, page.page_id = e.pageId := by
  obtain ⟨htc1, _⟩ := reconcile_ok_parts h1
  obtain ⟨htc2, hup2⟩ := reconcile_ok_parts h2
  have hmem1 := filterExcept_ok_mem htc1
  set E1 := (getExistingAssignments P).assignmentIds with hE1
  set E2 := (getExistingAssignments (P ++ r1.toCreate.map fun p =>
    pageOfCreate (f p) p)).assignmentIds with hE2
  have hsplit : E2 = E1 ++ (getExistingAssignments
      (r1.toCreate.map fun p => pageOfCreate (f p) p)).assignmentIds := by
    rw [hE2, hE1, getExistingAssignments_append]
  constructor
  · have hall : ∀ entry ∈ newEntries now2 A,
        toCreatePred E2 entry = .ok false := by
      intro entry hentry
      obtain ⟨a, haA, hasent, rfl⟩ := mem_newEntries.mp hentry
      obtain ⟨n, hn⟩ := toCreate_ok_forall_some htc1
        (assignmentToNewPage now1 a)
        (mem_newEntries.mpr ⟨a, haA, hasent, rfl⟩)
      have haid : a.id = some n := hn
      have hnz : n ≠ 0 := by
        intro hz
        exact h0 a haA hasent (by rw [haid, hz])
      have hin : ((E2.map fun e => e.assignmentId).contains
          (toString n)) = true := by
        by_cases hc1 : ((E1.map fun e => e.assignmentId).contains
            (toString n)) = true
        · obtain ⟨e, he, hk⟩ := (keys_contains_iff E1 (toString n)).mp hc1
          refine (keys_contains_iff E2 (toString n)).mpr ⟨e, ?_, hk⟩
          rw [hsplit]
          exact List.mem_append_left _ he
        · rw [Bool.not_eq_true] at hc1
          have hcr1 : assignmentToNewPage now1 a ∈ r1.toCreate := by
            refine (hmem1 _).mpr
              ⟨mem_newEntries.mpr ⟨a, haA, hasent, rfl⟩, ?_⟩
            rw [toCreatePred_eq
              (show (assignmentToNewPage now1 a).assignmentId = some n
                from haid), hc1]
            rfl
          have hpage : pageOfCreate (f (assignmentToNewPage now1 a))
              (assignmentToNewPage now1 a) ∈
              r1.toCreate.map fun p => pageOfCreate (f p) p :=
            List.mem_map.mpr ⟨assignmentToNewPage now1 a, hcr1, rfl⟩
          have hentry2 : (⟨toString n, f (assignmentToNewPage now1 a)⟩ :
              ExistingEntry) ∈ (getExistingAssignments
                (r1.toCreate.map fun p => pageOfCreate (f p) p)).assignmentIds := by
            refine mem_getExistingAssignments.mpr
              ⟨pageOfCreate (f (assignmentToNewPage now1 a))
                (assignmentToNewPage now1 a), hpage, rfl, n, hnz, ?_, rfl⟩
            exact congrArg (fun v => some (AssignmentIdProp.number v)) hn
          refine (keys_contains_iff E2 (toString n)).mpr
            ⟨⟨toString n, f (assignmentToNewPage now1 a)⟩, ?_, rfl⟩
          rw [hsplit]
          exact List.mem_append_right _ hentry2
      rw [toCreatePred_eq
        (show (assignmentToNewPage now2 a).assignmentId = some n from haid),
        hin]
      rfl
    have hnil : filterExcept (toCreatePred E2) (newEntries now2 A) =
        .ok [] := filterExcept_ok_nil hall
    rw [htc2] at hnil
    simpa using hnil.symm
  · intro page hpage
    rw [hup2] at hpage
    obtain ⟨a, haus, rfl⟩ := List.mem_map.mp hpage
    have hfind : (findEntry E2 a).isSome = true :=
      (mem_updateSource.mp haus).2.2
    cases hfe : findEntry E2 a with
    | none => rw [hfe] at hfind; exact absurd hfind (by simp)
    | some e =>
      obtain ⟨heE, _⟩ := findEntry_mem_and_key hfe
      exact ⟨e, heE, rfl⟩

/-- Witness for the amended C5 at a concrete input. -/
theorem reconcile_idempotent_witness :
    (∀ a ∈ [(⟨some 1, some "HW1", some "d1", none, none⟩ : Assignment)],
      a.name ≠ some "SYS_EXCEPTION_GRADE" → a.id ≠ some 0) ∧
    reconcile "T1" [⟨some 1, some "HW1", some "d1", none, none⟩]
      (getExistingAssignments ([] : List NotionPage)).assignmentIds =
      .ok ⟨[⟨"HW1", "d1", some 1, "0", none⟩], []⟩ ∧
    reconcile "T2" [⟨some 1, some "HW1", some "d1", none, none⟩]
      (getExistingAssignments (([] : List NotionPage) ++
        (ReconcileResult.mk [⟨"HW1", "d1", some 1, "0", none⟩]
          []).toCreate.map fun p => pageOfCreate "p1" p)).assignmentIds =
      .ok ⟨[], [⟨"p1", [("Due Date", .date "d1"),
        ("Assignment URL", .url none)]⟩]⟩ ∧
    ((ReconcileResult.mk []
        [⟨"p1", [("Due Date", .date "d1"),
          ("Assignment URL", .url none)]⟩]).toCreate = [] ∧
      ∀ page ∈ (ReconcileResult.mk []
        [(⟨"p1", [("Due Date", .date "d1"),
          ("Assignment URL", .url none)]⟩ : UpdatedPage)]).toUpdate,
        ∃ e ∈ (getExistingAssignments (([] : List NotionPage) ++
          (ReconcileResult.mk [⟨"HW1", "d1", some 1, "0", none⟩]
            []).toCreate.map fun p => pageOfCreate "p1" p)).assignmentIds,
          page.page_id = e.pageId) :=
  ⟨by decide, rfl, rfl,
    reconcile_idempotent "T1" "T2"
      [⟨some 1, some "HW1", some "d1", none, none⟩] []
      (fun _ => "p1")
      ⟨[⟨"HW1", "d1", some 1, "0", none⟩], []⟩
      ⟨[], [⟨"p1", [("Due Date", .date "d1"),
        ("Assignment URL", .url none)]⟩]⟩
      (by decide) rfl rfl⟩

end CanvasToNotion
